import Mathlib

/-!
Shallow embedding of `worldgen/util/blender.py` (a utility layer over the
Blender `bpy` scene-graph API) and proofs about its context managers and
helper functions.

The host application state is modelled explicitly:
objects are identified by natural-number ids; `bpy.data.objects` is the list
of ids of currently existing objects; the per-object selection flag is
modelled as the list of ids whose flag is set; the active object is an
`Option Nat`; per-object interaction mode is a function `Nat → String`.
-/

namespace InfinigenButil

/-- State of the relevant parts of the Blender context for selection,
active object, and interaction modes. -/
structure Scene where
  objs : List Nat
  selected : List Nat
  active : Option Nat
  mode : Nat → String

/-- `o.select_set(v)`: set the selection flag of object `o` to `v`.
`bpy.context.selected_objects` is exactly the list of objects whose flag
is set, so setting the flag true appends `o` (if absent) and setting it
false removes `o`. -/
def select_set (s : Scene) (o : Nat) (v : Bool) : Scene :=
  if v then
    { s with selected := if s.selected.contains o then s.selected else s.selected ++ [o] }
  else
    { s with selected := s.selected.filter (fun x => x ≠ o) }

/-- `select_none()` (blender.py lines 150-154): deselect the active object
(when there is one), then deselect every object in the snapshot of
`bpy.context.selected_objects`. -/
def select_none (s : Scene) : Scene :=
  let s1 := match s.active with
    | some a => select_set s a false
    | none => s
  s1.selected.foldl (fun st o => select_set st o false) s1

/-- `select(objs)` (blender.py lines 156-161) after the singleton
normalisation `if not isinstance(objs, list): objs = [objs]`:
deselect everything, then set the flag of each given object. -/
def select (s : Scene) (objs : List Nat) : Scene :=
  objs.foldl (fun st o => select_set st o true) (select_none s)

/-- The argument of `select`: the source accepts a single object or a
list of objects and normalises to a list. -/
inductive SelArg where
  | one (o : Nat)
  | many (l : List Nat)

/-- `if not isinstance(objs, list): objs = [objs]` -/
def SelArg.norm : SelArg → List Nat
  | .one o => [o]
  | .many l => l

/-- Saved context of `SelectObjects.__enter__`: the snapshot of
`bpy.context.selected_objects` and of `bpy.context.active_object`. -/
structure SelSaved where
  saved_objects : List Nat
  saved_active : Option Nat

/-- The `active` argument of `SelectObjects`: either an integer index into
the object list or an object itself (`isinstance(self.active, int)`). -/
inductive ActiveArg where
  | idx (i : Nat)
  | obj (o : Nat)

/-- `SelectObjects.__enter__` (blender.py lines 64-74): snapshot selection
and active object, `select_none(); select(self.objects)`, then if the
object list is non-empty make `objects[active]` (or the given object)
active.  An out-of-range integer index raises IndexError in Python; it is
modelled by `List.get?` (the claims only exercise in-range indices). -/
def SelectObjects_enter (objects : List Nat) (active : ActiveArg) (s : Scene) :
    SelSaved × Scene :=
  let saved_objects := s.selected
  let saved_active := s.active
  let s := select_none s
  let s := select s objects
  let s :=
    if objects.length ≠ 0 then
      match active with
      | .idx i => { s with active := objects.get? i }
      | .obj o => { s with active := some o }
    else s
  (⟨saved_objects, saved_active⟩, s)

/-- `enforce_not_deleted` (blender.py lines 79-83): an object is kept only
if its name is still in `bpy.data.objects` (accessing a deleted object
raises ReferenceError, also yielding None). -/
def enforce_not_deleted (s : Scene) (o : Nat) : Option Nat :=
  if s.objs.contains o then some o else none

/-- `SelectObjects.__exit__` (blender.py lines 76-91): drop deleted saved
objects, `select_none(); select(saved)`, and if a non-None active object
was saved, restore it through `enforce_not_deleted`. -/
def SelectObjects_exit (saved : SelSaved) (s : Scene) : Scene :=
  let saved_objects := saved.saved_objects.filterMap (enforce_not_deleted s)
  let s2 := select_none s
  let s2 := select s2 saved_objects
  match saved.saved_active with
  | none => s2
  | some a => { s2 with active := enforce_not_deleted s2 a }

/-- `bpy.ops.object.mode_set(mode=m)`: set the interaction mode of the
active object (a no-op model when there is no active object; the callers
below always set one first). -/
def mode_set (s : Scene) (m : String) : Scene :=
  match s.active with
  | some a => { s with mode := fun x => if x = a then m else s.mode x }
  | none => s

/-- `ViewportMode.__enter__` (blender.py lines 32-36): save the active
object, make `obj` active, save `bpy.context.object.mode` (the mode of the
now-active `obj`), and switch to the requested mode. -/
def ViewportMode_enter (obj : Nat) (m : String) (s : Scene) :
    (Option Nat × String) × Scene :=
  let orig_active := s.active
  let s := { s with active := some obj }
  let orig_mode := (s.active.map s.mode).getD "OBJECT"
  let s := mode_set s m
  ((orig_active, orig_mode), s)

/-- `ViewportMode.__exit__` (blender.py lines 37-40): make `obj` active
again, switch back to the saved mode, and restore the saved active
object. -/
def ViewportMode_exit (obj : Nat) (saved : Option Nat × String) (s : Scene) : Scene :=
  let s := { s with active := some obj }
  let s := mode_set s saved.2
  { s with active := saved.1 }

/-! ### CursorLocation

`bpy.context.scene.cursor.location` is a float-vector RNA property.
Reading it returns a `mathutils.Vector` that wraps the underlying property
storage: the returned vector reads through to the live cursor data, so it
changes whenever the cursor is moved.  Assigning to the property copies
the current numeric value of the right-hand side into the storage.  A
Python variable of vector type is therefore either such a wrapper or an
ordinary owned value (e.g. a tuple or a fresh `Vector`). -/

/-- A Python value standing for a cursor location: either the wrapper
returned by reading `scene.cursor.location`, or an owned value. -/
inductive PyVec where
  | wrapped
  | owned (v : Int × Int × Int)

/-- The part of the Blender state relevant to `CursorLocation`: the 3D
cursor position stored in the scene. -/
structure CursorScene where
  cursor : Int × Int × Int

/-- Reading the numeric value of a vector variable: a wrapper reads the
live cursor storage. -/
def vec_read (s : CursorScene) : PyVec → Int × Int × Int
  | .wrapped => s.cursor
  | .owned v => v

/-- `bpy.context.scene.cursor.location` (read): returns a wrapper over the
cursor storage, not a copy. -/
def cursor_location_get : PyVec := .wrapped

/-- `bpy.context.scene.cursor.location = v` (write): copies the current
numeric value of `v` into the cursor storage. -/
def cursor_location_set (s : CursorScene) (v : PyVec) : CursorScene :=
  { s with cursor := vec_read s v }

/-- `CursorLocation.__enter__` (blender.py lines 48-50):
`self.saved = bpy.context.scene.cursor.location` (no `.copy()`), then set
the cursor to `self.loc`. -/
def CursorLocation_enter (loc : PyVec) (s : CursorScene) : PyVec × CursorScene :=
  let saved := cursor_location_get
  (saved, cursor_location_set s loc)

/-- `CursorLocation.__exit__` (blender.py lines 52-53):
`bpy.context.scene.cursor.location = self.saved`. -/
def CursorLocation_exit (saved : PyVec) (s : CursorScene) : CursorScene :=
  cursor_location_set s saved

/-! ### DisableModifiers

Modifiers are identified by natural-number ids; the state is their
`show_viewport` flag. -/

/-- The `show_viewport` flag of every modifier. -/
structure ModScene where
  show_viewport : Nat → Bool

/-- `m.show_viewport = v` for a single modifier `m`. -/
def set_show_viewport (st : ModScene) (m : Nat) (v : Bool) : ModScene :=
  { show_viewport := fun x => if x = m then v else st.show_viewport x }

/-- The nested loops of `DisableModifiers.__enter__` (blender.py lines
100-106), iterating over the modifiers of all objects in order (`for o in
self.objs: for m in o.modifiers`, i.e. the join of the per-object
modifier lists): a modifier that is hidden or in `keep` is skipped;
otherwise it is appended to `modifiers_disabled` and hidden. -/
def DisableModifiers_enter_go (keep : List Nat) :
    List Nat → List Nat → ModScene → List Nat × ModScene
  | [], acc, st => (acc, st)
  | m :: rest, acc, st =>
    if st.show_viewport m = false ∨ m ∈ keep then
      DisableModifiers_enter_go keep rest acc st
    else
      DisableModifiers_enter_go keep rest (acc ++ [m]) (set_show_viewport st m false)

/-- `DisableModifiers.__enter__` over the per-object modifier lists
(`objs` already normalised to a list as in `__init__`). -/
def DisableModifiers_enter (objs : List (List Nat)) (keep : List Nat) (st : ModScene) :
    List Nat × ModScene :=
  DisableModifiers_enter_go keep objs.flatten [] st

/-- `DisableModifiers.__exit__` (blender.py lines 108-110): re-enable
every modifier recorded in `modifiers_disabled`. -/
def DisableModifiers_exit (disabled : List Nat) (st : ModScene) : ModScene :=
  disabled.foldl (fun st m => set_show_viewport st m true) st

/-! ### Garbage-collection loop (blender.py lines 124-137)

A data block has a name and a user count.  The loop body is
`for o in t: if keep_in_use and o.users > 0: continue; if o.name in orig:
continue; if "(no gc)" in o.name: continue; t.remove(o)`.

`t` is a live collection and `t.remove(o)` removes the current element
while the `for` iterator walks the collection by index, as for a Python
list: after removing the element at the current index, the element that
followed it shifts into that index and the iterator, which has already
advanced past the index, never visits it.  `gc_loop_target` models this
with `kept` holding the prefix already passed over (elements the iterator
left in the collection). -/

/-- A data block in a `bpy.data` collection. -/
structure Block where
  name : String
  users : Nat
deriving DecidableEq, Repr

/-- Python `pat` is a prefix of `s` (character lists). -/
def prefixOfChars : List Char → List Char → Bool
  | [], _ => true
  | _ :: _, [] => false
  | a :: as, b :: bs => a == b && prefixOfChars as bs

/-- Python `pat in s` for strings: `pat` occurs as a contiguous substring
of `s`. -/
def containsSubstring (pat : List Char) (s : List Char) : Bool :=
  prefixOfChars pat s ||
    match s with
    | [] => false
    | _ :: rest => containsSubstring pat rest

/-- `"(no gc)" in o.name`. -/
def name_contains_no_gc (o : Block) : Bool :=
  containsSubstring "(no gc)".toList o.name.toList

/-- One target pass of the garbage-collection loop.  `kept` is the part of
the collection the iterator has already passed over. -/
def gc_loop_target (keep_in_use : Bool) (orig : List String) :
    List Block → List Block → List Block
  | kept, [] => kept
  | kept, o :: rest =>
    if keep_in_use ∧ 0 < o.users then
      gc_loop_target keep_in_use orig (kept ++ [o]) rest
    else if o.name ∈ orig then
      gc_loop_target keep_in_use orig (kept ++ [o]) rest
    else if name_contains_no_gc o = true then
      gc_loop_target keep_in_use orig (kept ++ [o]) rest
    else
      match rest with
      | [] => kept
      | r :: rest2 => gc_loop_target keep_in_use orig (kept ++ [r]) rest2

/-- A block is protected from garbage collection: in use while
`keep_in_use` is set, or named in the keep list, or tagged `(no gc)`. -/
def gc_protected (keep_in_use : Bool) (orig : List String) (o : Block) : Prop :=
  (keep_in_use ∧ 0 < o.users) ∨ o.name ∈ orig ∨ name_contains_no_gc o = true

instance gc_protected_decidable (keep_in_use : Bool) (orig : List String) (o : Block) :
    Decidable (gc_protected keep_in_use orig o) := by
  unfold gc_protected
  infer_instance

/-! ### set_geomod_inputs (blender.py lines 342-353) -/

/-- Python exceptions relevant to `set_geomod_inputs`. -/
inductive PyErr where
  | typeError (msg : String)
  | keyError (key : String)
  | assertionError
deriving DecidableEq, Repr

/-- Python values assigned to geometry-nodes modifier inputs. -/
inductive PyVal where
  | int (n : Int)
  | float (x : Int)
  | str (s : String)
  | other (tag : String)
deriving DecidableEq, Repr

/-- `isinstance(soc.default_value, (float, int))`. -/
def PyVal.isNumeric : PyVal → Bool
  | .int _ => true
  | .float _ => true
  | _ => false

/-- A node-group input socket: `mod.node_group.inputs[k]` has a `name`
(the dictionary key), an `identifier` (the key used on the modifier) and a
`default_value`. -/
structure NGSocket where
  name : String
  identifier : String
  default_value : PyVal
deriving DecidableEq, Repr

/-- The host operations `set_geomod_inputs` calls into:
`assign id v` is `mod[id] = v` (which may raise), and `numCast d v` is
`type(soc.default_value)(v)` (which may also raise). -/
structure GeoHost where
  assign : String → PyVal → Except PyErr Unit
  numCast : PyVal → PyVal → Except PyErr PyVal

/-- The modifier as `set_geomod_inputs` sees it: its type string and the
input sockets of its node group. -/
structure GeoMod where
  mtype : String
  sockets : List NGSocket

/-- The `for k, v in inputs.items()` loop of `set_geomod_inputs`: look the
socket up by name, coerce numeric defaults, then `mod[soc.identifier] = v`
inside `try`: on `TypeError as e` the code prints added context and does
`raise e`, re-raising the very same exception, so any error from the host
assignment propagates unchanged. -/
def set_geomod_inputs_go (h : GeoHost) (sockets : List NGSocket) :
    List (String × PyVal) → Except PyErr Unit
  | [] => .ok ()
  | (k, v) :: rest =>
    match sockets.find? (fun s => s.name == k) with
    | none => .error (.keyError k)
    | some soc =>
      match (if soc.default_value.isNumeric then h.numCast soc.default_value v
             else .ok v) with
      | .error e => .error e
      | .ok v2 =>
        match h.assign soc.identifier v2 with
        | .error e => .error e
        | .ok _ => set_geomod_inputs_go h sockets rest

/-- `set_geomod_inputs(mod, inputs)`: `assert mod.type == "NODES"`, then
the assignment loop. -/
def set_geomod_inputs (h : GeoHost) (gmod : GeoMod) (inputs : List (String × PyVal)) :
    Except PyErr Unit :=
  if gmod.mtype = "NODES" then set_geomod_inputs_go h gmod.sockets inputs
  else .error .assertionError

/-! ### boolean (blender.py lines 410-423)

Modelled over a per-object state of modifier stacks plus a journal of the
modifiers that have been applied (baked into the mesh).  The whole loop
runs inside `SelectObjects(keep)`, which makes `keep` the active object,
so `bpy.ops.object.modifier_apply` acts on `keep`; Blender stores modifier
names uniquely per object, so `modifier_apply(modifier=mod.name)` applies
exactly the just-created modifier (the last in the stack). -/

/-- A Blender modifier: type, name and (for BOOLEAN) operation. -/
structure Modifier where
  mtype : String
  name : String
  operation : String
deriving DecidableEq, Repr

/-- A mesh object as `boolean` sees it: its modifier stack and the journal
of applied modifiers. -/
structure MeshObj where
  modifiers : List Modifier
  applied : List Modifier
deriving DecidableEq, Repr

/-- The modifier created by `keep.modifiers.new(type="BOOLEAN",
name="butil.boolean()")` after `mod.operation = mode`. -/
def booleanMod (mode : String) : Modifier :=
  ⟨"BOOLEAN", "butil.boolean()", mode⟩

/-- Modelled from the spec: the body of the guard
`if len(target.modifiers) != 0:` (line 418) is absent from the provided
source; following the spec ("Errors are host-application exceptions ...
propagated unchanged; a few call sites re-raise with added context") it is
modelled as raising an error for a target that still carries modifiers.
The `for target in rest` loop of `boolean`: create a BOOLEAN modifier on
`keep`, set its operation, and apply it (applying removes it from the
stack and bakes it, recorded in `applied`). -/
def boolean_go (keep : Nat) (mode : String) (st : Nat → MeshObj) :
    List Nat → Except PyErr (Nat × (Nat → MeshObj))
  | [] => .ok (keep, st)
  | target :: rest =>
    if (st target).modifiers.length ≠ 0 then
      .error (.typeError "butil.boolean() target has modifiers")
    else
      let o := st keep
      let o := { o with modifiers := o.modifiers ++ [booleanMod mode] }
      let o := { o with modifiers := o.modifiers.dropLast
                        applied := o.applied ++ [booleanMod mode] }
      boolean_go keep mode (fun x => if x = keep then o else st x) rest

/-- `boolean(objs, mode)` (lines 410-423): `keep, *rest = list(objs)`
(raising on an empty list), run the loop inside `SelectObjects(keep)`, and
return `keep`. -/
def boolean (objs : List Nat) (mode : String) (st : Nat → MeshObj) :
    Except PyErr (Nat × (Nat → MeshObj)) :=
  match objs with
  | [] => .error (.typeError "not enough values to unpack")
  | keep :: rest => boolean_go keep mode st rest

/-! ### traverse_children, iter_object_tree, group_in_collection -/

/-- An object with its children (the scene hierarchy below one object). -/
inductive OTree where
  | node (id : Nat) (children : List OTree)

/-- The id of the root object. -/
def OTree.id : OTree → Nat
  | node i _ => i

/-- The direct children of the root object. -/
def OTree.children : OTree → List OTree
  | node _ cs => cs

/-- `traverse_children(obj, fn)` (lines 171-174): apply `fn` to `obj` and
then to each direct child — the loop variable shadows `obj` and there is
no recursion, so deeper descendants are never visited.  `fn` is modelled
as a state transformer. -/
def traverse_children {σ : Type _} (fn : Nat → σ → σ) (obj : OTree) (s : σ) : σ :=
  obj.children.foldl (fun s c => fn c.id s) (fn obj.id s)

mutual

/-- `iter_object_tree(obj)` (lines 176-179): yield `obj`, then recursively
yield the whole tree of each child (`yield from`). -/
def iter_object_tree : OTree → List OTree
  | OTree.node i cs => OTree.node i cs :: iter_object_forest cs

/-- The `for c in obj.children: yield from iter_object_tree(c)` loop. -/
def iter_object_forest : List OTree → List OTree
  | [] => []
  | c :: cs => iter_object_tree c ++ iter_object_forest cs

end

mutual

/-- Reference predicate: `x` is the id of a node in the full subtree
rooted at `t` (the root, its children, and all deeper descendants). -/
def OTree.memId (x : Nat) : OTree → Bool
  | .node i cs => x == i || OTree.forestMemId x cs

/-- `x` is the id of a node in one of the trees of the forest. -/
def OTree.forestMemId (x : Nat) : List OTree → Bool
  | [] => false
  | c :: cs => OTree.memId x c || OTree.forestMemId x cs

end

/-- An element of the `objs` argument of `group_in_collection`:
`None | Blender Object | List[Blender Object]`. -/
inductive GroupEntry where
  | none
  | one (t : OTree)
  | many (ts : List OTree)

/-- The normalisation done by the loop: skip `None`, wrap a single object
into a list. -/
def GroupEntry.norm : GroupEntry → List OTree
  | .none => []
  | .one t => [t]
  | .many ts => ts

/-- Which collection each object is linked in (objects are linked
exclusively here, matching `put_in_collection(..., exclusive=True)`, the
default used by `group_in_collection`). -/
structure ColState where
  assign : Nat → Option String

/-- `put_in_collection(obj, collection)` with `exclusive=True` (lines
196-199): unlink the object from every collection, then link it into
`collection`. -/
def put_in_collection (o : Nat) (collection : String) (st : ColState) : ColState :=
  { assign := fun x => if x = o then some collection else st.assign x }

/-- The inner `for child in obj:` loop of `group_in_collection`, calling
`traverse_children(child, lambda obj: put_in_collection(obj, collection))`
for each child. -/
def group_fold (name : String) (ts : List OTree) (st : ColState) : ColState :=
  ts.foldl (fun st child =>
    traverse_children (fun i st => put_in_collection i name st) child st) st

/-- `group_in_collection(objs, name)` (lines 202-217): get (or create) the
collection `name`, then relink every entry and — via `traverse_children` —
its direct children into it. -/
def group_in_collection (objs : List GroupEntry) (name : String) (st : ColState) : ColState :=
  objs.foldl (fun st e => group_fold name (GroupEntry.norm e) st) st

/-! ### spawn_point_cloud and spawn_line (blender.py lines 244-259) -/

/-- The mesh built by `mesh.from_pydata(pts, edges, [])`. -/
structure PCMesh where
  verts : List (Int × Int × Int)
  edges : List (Nat × Nat)
  faces : List (List Nat)
deriving DecidableEq, Repr

/-- The object created by `spawn_point_cloud`. -/
structure PCObj where
  name : String
  mesh : PCMesh
deriving DecidableEq, Repr

/-- `spawn_point_cloud(name, pts, edges=None)` (lines 244-251, the
function header is truncated in the source but the body is intact):
`if edges is None: edges = []`, build a mesh from the points and edges
with no faces, and wrap it in a new object. -/
def spawn_point_cloud (name : String) (pts : List (Int × Int × Int))
    (edges : Option (List (Nat × Nat))) : PCObj :=
  let edges := edges.getD []
  ⟨name, ⟨pts, edges, []⟩⟩

/-- `spawn_line(name, pts)` (lines 256-259): `idxs = np.arange(len(pts))`,
`edges = np.stack([idxs[:-1], idxs[1:]], axis=-1)` — the pairs
`(idxs[i], idxs[i+1])` — then `spawn_point_cloud(name, pts, edges)`. -/
def spawn_line (name : String) (pts : List (Int × Int × Int)) : PCObj :=
  let idxs := List.range pts.length
  let edges := idxs.dropLast.zip idxs.tail
  spawn_point_cloud name pts (some edges)

section SelectionLemmas

lemma select_set_active (s : Scene) (o : Nat) (v : Bool) :
    (select_set s o v).active = s.active := by
  unfold select_set; split <;> rfl

lemma select_set_objs (s : Scene) (o : Nat) (v : Bool) :
    (select_set s o v).objs = s.objs := by
  unfold select_set; split <;> rfl

lemma mem_select_set_false (s : Scene) (o x : Nat) :
    x ∈ (select_set s o false).selected ↔ x ∈ s.selected ∧ x ≠ o := by
  simp [select_set, List.mem_filter]

lemma mem_select_set_true (s : Scene) (o x : Nat) :
    x ∈ (select_set s o true).selected ↔ x ∈ s.selected ∨ x = o := by
  by_cases h : s.selected.contains o
  · have hm : o ∈ s.selected := by simpa using h
    simp only [select_set, if_pos rfl, h, if_true]
    constructor
    · exact fun hx => Or.inl hx
    · rintro (hx | rfl) <;> [exact hx; exact hm]
  · simp only [select_set, if_pos rfl, h, if_false]
    simp [List.mem_append]

lemma clearFold_active (l : List Nat) (s : Scene) :
    (l.foldl (fun st o => select_set st o false) s).active = s.active := by
  induction l generalizing s with
  | nil => rfl
  | cons o l ih => simp [List.foldl_cons, ih, select_set_active]

lemma clearFold_objs (l : List Nat) (s : Scene) :
    (l.foldl (fun st o => select_set st o false) s).objs = s.objs := by
  induction l generalizing s with
  | nil => rfl
  | cons o l ih => simp [List.foldl_cons, ih, select_set_objs]

lemma mem_clearFold (l : List Nat) (s : Scene) (x : Nat) :
    x ∈ (l.foldl (fun st o => select_set st o false) s).selected ↔
      x ∈ s.selected ∧ x ∉ l := by
  induction l generalizing s with
  | nil => simp
  | cons o l ih =>
    simp only [List.foldl_cons, ih, mem_select_set_false, List.mem_cons]
    constructor
    · rintro ⟨⟨hx, hne⟩, hnl⟩
      exact ⟨hx, by rintro (rfl | h) <;> [exact hne rfl; exact hnl h]⟩
    · rintro ⟨hx, hn⟩
      exact ⟨⟨hx, fun hq => hn (Or.inl hq)⟩, fun hq => hn (Or.inr hq)⟩

lemma select_none_selected (s : Scene) : (select_none s).selected = [] := by
  unfold select_none
  apply List.eq_nil_iff_forall_not_mem.mpr
  intro x hx
  rcases (mem_clearFold _ _ x).mp hx with ⟨hmem, hnot⟩
  exact hnot hmem

lemma select_none_active (s : Scene) : (select_none s).active = s.active := by
  unfold select_none
  cases h : s.active <;> simp [clearFold_active, select_set_active, h]

lemma select_none_objs (s : Scene) : (select_none s).objs = s.objs := by
  unfold select_none
  cases h : s.active <;> simp [clearFold_objs, select_set_objs, h]

lemma mem_selFold (l : List Nat) (s : Scene) (x : Nat) :
    x ∈ (l.foldl (fun st o => select_set st o true) s).selected ↔
      x ∈ s.selected ∨ x ∈ l := by
  induction l generalizing s with
  | nil => simp
  | cons o l ih =>
    simp only [List.foldl_cons, ih, mem_select_set_true, List.mem_cons]
    tauto

lemma selFold_active (l : List Nat) (s : Scene) :
    (l.foldl (fun st o => select_set st o true) s).active = s.active := by
  induction l generalizing s with
  | nil => rfl
  | cons o l ih => simp [List.foldl_cons, ih, select_set_active]

lemma selFold_objs (l : List Nat) (s : Scene) :
    (l.foldl (fun st o => select_set st o true) s).objs = s.objs := by
  induction l generalizing s with
  | nil => rfl
  | cons o l ih => simp [List.foldl_cons, ih, select_set_objs]

lemma mem_select (s : Scene) (objs : List Nat) (x : Nat) :
    x ∈ (select s objs).selected ↔ x ∈ objs := by
  unfold select
  rw [mem_selFold, select_none_selected]
  simp

lemma select_active (s : Scene) (objs : List Nat) :
    (select s objs).active = s.active := by
  unfold select
  rw [selFold_active, select_none_active]

lemma select_objs (s : Scene) (objs : List Nat) :
    (select s objs).objs = s.objs := by
  unfold select
  rw [selFold_objs, select_none_objs]

end SelectionLemmas

section SelectObjectsLemmas

lemma SelectObjects_enter_fst (objects : List Nat) (active : ActiveArg) (s : Scene) :
    (SelectObjects_enter objects active s).1 = ⟨s.selected, s.active⟩ := rfl

lemma mem_filterMap_enforce (s : Scene) (l : List Nat) (x : Nat) :
    x ∈ l.filterMap (enforce_not_deleted s) ↔ x ∈ l ∧ x ∈ s.objs := by
  simp only [List.mem_filterMap, enforce_not_deleted]
  constructor
  · rintro ⟨a, ha, h⟩
    by_cases hc : s.objs.contains a
    · rw [if_pos hc] at h
      cases h
      exact ⟨ha, by simpa using hc⟩
    · rw [if_neg hc] at h
      cases h
  · rintro ⟨hl, ho⟩
    exact ⟨x, hl, by rw [if_pos (by simpa using ho)]⟩

lemma SelectObjects_exit_selected (saved : SelSaved) (s : Scene) (x : Nat) :
    x ∈ (SelectObjects_exit saved s).selected ↔
      x ∈ saved.saved_objects ∧ x ∈ s.objs := by
  unfold SelectObjects_exit
  cases h : saved.saved_active with
  | none => rw [mem_select, mem_filterMap_enforce]
  | some a =>
    show x ∈ (select _ _).selected ↔ _
    rw [mem_select, mem_filterMap_enforce]

lemma SelectObjects_exit_active (saved : SelSaved) (s : Scene) :
    (SelectObjects_exit saved s).active =
      match saved.saved_active with
      | none => s.active
      | some a => if s.objs.contains a then some a else none := by
  unfold SelectObjects_exit
  cases h : saved.saved_active with
  | none => rw [select_active, select_none_active]
  | some a =>
    show (enforce_not_deleted _ a) = _
    unfold enforce_not_deleted
    rw [select_objs, select_none_objs]

end SelectObjectsLemmas

/-- C8: after `select(objs)` (single object or list), the set of selected
objects is exactly the given objects: `select_none` first clears the whole
selection (including the active object), then each given object is
selected, so the selection is replaced, never extended. -/
theorem select_replaces_selection (s : Scene) (arg : SelArg) (x : Nat) :
    (select_none s).selected = [] ∧
    (x ∈ (select s arg.norm).selected ↔ x ∈ arg.norm) :=
  ⟨select_none_selected s, mem_select s arg.norm x⟩

/-- C3: `ViewportMode(obj, mode)` makes `obj` active and switches it into
the requested mode on entry; on exit (after an arbitrary body `b`) it
switches `obj` back to the mode it had on entry and restores the
previously active object. -/
theorem ViewportMode_restores (s : Scene) (obj : Nat) (m : String) (b : Scene → Scene) :
    (ViewportMode_enter obj m s).2.active = some obj ∧
    (ViewportMode_enter obj m s).2.mode obj = m ∧
    (ViewportMode_exit obj (ViewportMode_enter obj m s).1
        (b (ViewportMode_enter obj m s).2)).mode obj = s.mode obj ∧
    (ViewportMode_exit obj (ViewportMode_enter obj m s).1
        (b (ViewportMode_enter obj m s).2)).active = s.active := by
  refine ⟨rfl, by simp [ViewportMode_enter, mode_set], ?_, rfl⟩
  simp [ViewportMode_enter, ViewportMode_exit, mode_set]

/-- C1 counterexample: the claim "on exit the context manager restores the
selection set and the active object that were current on entry" fails when
the active object on entry is `none` and the body sets one: with scene
`⟨objs := [1, 2], selected := [], active := none⟩`, `SelectObjects([1])`,
and a body that makes object 2 active (no object is deleted), the active
object after exit is `some 2`, not the entry value `none`. -/
theorem SelectObjects_claim_counterexample :
    (Scene.mk [1, 2] [] none (fun _ => "OBJECT")).active = none ∧
    (SelectObjects_exit
        (SelectObjects_enter [1] (ActiveArg.idx 0)
          ⟨[1, 2], [], none, fun _ => "OBJECT"⟩).1
        ({ (SelectObjects_enter [1] (ActiveArg.idx 0)
              ⟨[1, 2], [], none, fun _ => "OBJECT"⟩).2
            with active := some 2 })).active = some 2 := by
  constructor
  · rfl
  · simp [SelectObjects_exit, SelectObjects_enter_fst, select_active, select_none_active]

/-- C1 amended: on exit `SelectObjects` restores the entry selection set
minus any objects deleted during the body; if a non-None active object was
saved on entry it is restored (or set to None when it was deleted); if the
saved active object was None, the active object is left as the body left
it. -/
theorem SelectObjects_restores (s : Scene) (objects : List Nat) (active : ActiveArg)
    (b : Scene → Scene) (x : Nat) :
    (x ∈ (SelectObjects_exit (SelectObjects_enter objects active s).1
            (b (SelectObjects_enter objects active s).2)).selected ↔
       x ∈ s.selected ∧ x ∈ (b (SelectObjects_enter objects active s).2).objs) ∧
    (SelectObjects_exit (SelectObjects_enter objects active s).1
        (b (SelectObjects_enter objects active s).2)).active =
      match s.active with
      | none => (b (SelectObjects_enter objects active s).2).active
      | some a =>
          if (b (SelectObjects_enter objects active s).2).objs.contains a
          then some a else none := by
  rw [SelectObjects_enter_fst]
  exact ⟨SelectObjects_exit_selected _ _ x, SelectObjects_exit_active _ _⟩

/-- C2 evidence: `CursorLocation` does not restore the cursor.  Because
`self.saved` is the live wrapper (saved without `.copy()`), the exit
assignment copies the cursor onto itself.  Concretely, entering with the
cursor at the origin and `loc = (1, 1, 1)` and exiting immediately leaves
the cursor at `(1, 1, 1)`; in general the exit never changes the cursor,
whatever the body `b` did. -/
theorem CursorLocation_not_restored :
    (CursorLocation_exit
        (CursorLocation_enter (PyVec.owned (1, 1, 1)) ⟨(0, 0, 0)⟩).1
        (CursorLocation_enter (PyVec.owned (1, 1, 1)) ⟨(0, 0, 0)⟩).2).cursor
      = (1, 1, 1) ∧
    (CursorScene.mk (0, 0, 0)).cursor = (0, 0, 0) ∧
    ∀ (loc : PyVec) (s : CursorScene) (b : CursorScene → CursorScene),
      (CursorLocation_exit (CursorLocation_enter loc s).1
          (b (CursorLocation_enter loc s).2)).cursor
        = (b (CursorLocation_enter loc s).2).cursor := by
  exact ⟨rfl, rfl, fun loc s b => rfl⟩

section DisableModifiersLemmas

lemma set_show_viewport_eval (st : ModScene) (m x : Nat) (v : Bool) :
    (set_show_viewport st m v).show_viewport x = if x = m then v else st.show_viewport x := rfl

lemma DisableModifiers_enter_go_cons (keep : List Nat) (m0 : Nat) (rest acc : List Nat)
    (st : ModScene) :
    DisableModifiers_enter_go keep (m0 :: rest) acc st =
      if st.show_viewport m0 = false ∨ m0 ∈ keep then
        DisableModifiers_enter_go keep rest acc st
      else
        DisableModifiers_enter_go keep rest (acc ++ [m0])
          (set_show_viewport st m0 false) := rfl

lemma DisableModifiers_enter_go_spec (keep ms acc : List Nat) (st : ModScene) :
    (∀ m, m ∈ (DisableModifiers_enter_go keep ms acc st).1 ↔
       m ∈ acc ∨ (m ∈ ms ∧ st.show_viewport m = true ∧ m ∉ keep)) ∧
    (∀ m, (DisableModifiers_enter_go keep ms acc st).2.show_viewport m =
       if m ∈ ms ∧ st.show_viewport m = true ∧ m ∉ keep then false
       else st.show_viewport m) := by
  induction ms generalizing acc st with
  | nil =>
    refine ⟨fun m => by simp [DisableModifiers_enter_go], fun m => by
      simp [DisableModifiers_enter_go]⟩
  | cons m0 rest ih =>
    by_cases h : st.show_viewport m0 = false ∨ m0 ∈ keep
    · have hP0 : ¬ (st.show_viewport m0 = true ∧ m0 ∉ keep) := by
        rintro ⟨hs, hk⟩
        rcases h with h1 | h1
        · rw [hs] at h1
          cases h1
        · exact hk h1
      rw [DisableModifiers_enter_go_cons, if_pos h]
      obtain ⟨ih1, ih2⟩ := ih acc st
      constructor
      · intro m
        rw [ih1 m]
        constructor
        · rintro (hm | ⟨hr, hrest⟩)
          · exact Or.inl hm
          · exact Or.inr ⟨List.mem_cons_of_mem _ hr, hrest⟩
        · rintro (hm | ⟨hc, hs, hk⟩)
          · exact Or.inl hm
          · rcases List.mem_cons.mp hc with hm0 | hr
            · subst hm0
              exact absurd ⟨hs, hk⟩ hP0
            · exact Or.inr ⟨hr, hs, hk⟩
      · intro m
        rw [ih2 m]
        apply if_congr _ rfl rfl
        rw [List.mem_cons]
        constructor
        · rintro ⟨hr, hrest⟩
          exact ⟨Or.inr hr, hrest⟩
        · rintro ⟨hm0 | hr, hs, hk⟩
          · subst hm0
            exact absurd ⟨hs, hk⟩ hP0
          · exact ⟨hr, hs, hk⟩
    · push_neg at h
      obtain ⟨hs0, hk0⟩ := h
      have hs0 : st.show_viewport m0 = true := by
        cases hv : st.show_viewport m0
        · exact absurd hv hs0
        · rfl
      rw [DisableModifiers_enter_go_cons,
        if_neg (by rw [hs0]; rintro (h1 | h1) <;> [cases h1; exact hk0 h1])]
      obtain ⟨ih1, ih2⟩ := ih (acc ++ [m0]) (set_show_viewport st m0 false)
      constructor
      · intro m
        rw [ih1 m, List.mem_append]
        by_cases hm : m = m0
        · subst hm
          simp [hs0, hk0]
        · simp only [List.mem_singleton, hm, or_false,
            set_show_viewport_eval, if_neg hm, List.mem_cons, false_or]
          tauto
      · intro m
        rw [ih2 m]
        by_cases hm : m = m0
        · subst hm
          simp [set_show_viewport_eval, List.mem_cons, hs0, hk0]
        · simp only [set_show_viewport_eval, if_neg hm, List.mem_cons]
          apply if_congr _ rfl rfl
          tauto

lemma DisableModifiers_exit_eval (disabled : List Nat) (st : ModScene) (m : Nat) :
    (DisableModifiers_exit disabled st).show_viewport m =
      if m ∈ disabled then true else st.show_viewport m := by
  induction disabled generalizing st with
  | nil => simp [DisableModifiers_exit]
  | cons d rest ih =>
    show (DisableModifiers_exit rest (set_show_viewport st d true)).show_viewport m = _
    rw [ih]
    by_cases hr : m ∈ rest
    · simp [hr]
    · by_cases hd : m = d
      · subst hd
        simp [set_show_viewport_eval]
      · simp [hr, hd, set_show_viewport_eval]

end DisableModifiersLemmas

/-- C6: `DisableModifiers(objs, keep)` disables on entry exactly the
modifiers that were visible on entry and not in `keep` (first conjunct
characterises the recorded list, second gives the resulting flags), and on
exit re-enables exactly those recorded modifiers, leaving every other
modifier's flag as the body left it (third conjunct). -/
theorem DisableModifiers_spec (objs : List (List Nat)) (keep : List Nat) (st : ModScene)
    (b : ModScene → ModScene) (m : Nat) :
    (m ∈ (DisableModifiers_enter objs keep st).1 ↔
       m ∈ objs.flatten ∧ st.show_viewport m = true ∧ m ∉ keep) ∧
    ((DisableModifiers_enter objs keep st).2.show_viewport m =
       if m ∈ (DisableModifiers_enter objs keep st).1 then false
       else st.show_viewport m) ∧
    ((DisableModifiers_exit (DisableModifiers_enter objs keep st).1
        (b (DisableModifiers_enter objs keep st).2)).show_viewport m =
       if m ∈ (DisableModifiers_enter objs keep st).1 then true
       else (b (DisableModifiers_enter objs keep st).2).show_viewport m) := by
  unfold DisableModifiers_enter
  obtain ⟨h1, h2⟩ := DisableModifiers_enter_go_spec keep objs.flatten [] st
  have hmem : m ∈ (DisableModifiers_enter_go keep objs.flatten [] st).1 ↔
      m ∈ objs.flatten ∧ st.show_viewport m = true ∧ m ∉ keep := by
    rw [h1 m]
    simp
  refine ⟨hmem, ?_, DisableModifiers_exit_eval _ _ m⟩
  rw [h2 m]
  exact if_congr hmem.symm rfl rfl

section GarbageCollectLemmas

lemma gc_loop_target_cons (ku : Bool) (orig : List String) (kept : List Block)
    (o : Block) (rest : List Block) :
    gc_loop_target ku orig kept (o :: rest) =
      if ku ∧ 0 < o.users then gc_loop_target ku orig (kept ++ [o]) rest
      else if o.name ∈ orig then gc_loop_target ku orig (kept ++ [o]) rest
      else if name_contains_no_gc o = true then gc_loop_target ku orig (kept ++ [o]) rest
      else
        match rest with
        | [] => kept
        | r :: rest2 => gc_loop_target ku orig (kept ++ [r]) rest2 := by
  cases rest with
  | nil => rw [gc_loop_target.eq_2]
  | cons r rest2 => rw [gc_loop_target.eq_3]

lemma gc_loop_target_mem (ku : Bool) (orig : List String) (kept t : List Block) :
    (∀ o, gc_protected ku orig o →
      (o ∈ gc_loop_target ku orig kept t ↔ o ∈ kept ∨ o ∈ t)) ∧
    (∀ o, o ∈ gc_loop_target ku orig kept t → o ∈ kept ∨ o ∈ t) := by
  induction kept, t using gc_loop_target.induct ku orig with
  | case1 kept =>
    constructor
    · intro o _
      simp [gc_loop_target]
    · intro o h
      exact Or.inl (by simpa [gc_loop_target] using h)
  | case2 kept o0 rest h1 ih =>
    rw [gc_loop_target_cons, if_pos h1]
    obtain ⟨ih1, ih2⟩ := ih
    constructor
    · intro o hp
      rw [ih1 o hp, List.mem_append, List.mem_singleton, List.mem_cons]
      tauto
    · intro o hm
      rcases ih2 o hm with h | h
      · rcases List.mem_append.mp h with h | h
        · exact Or.inl h
        · exact Or.inr (List.mem_cons.mpr (Or.inl (List.mem_singleton.mp h)))
      · exact Or.inr (List.mem_cons_of_mem _ h)
  | case3 kept o0 rest h1 h2 ih =>
    rw [gc_loop_target_cons, if_neg h1, if_pos h2]
    obtain ⟨ih1, ih2⟩ := ih
    constructor
    · intro o hp
      rw [ih1 o hp, List.mem_append, List.mem_singleton, List.mem_cons]
      tauto
    · intro o hm
      rcases ih2 o hm with h | h
      · rcases List.mem_append.mp h with h | h
        · exact Or.inl h
        · exact Or.inr (List.mem_cons.mpr (Or.inl (List.mem_singleton.mp h)))
      · exact Or.inr (List.mem_cons_of_mem _ h)
  | case4 kept o0 rest h1 h2 h3 ih =>
    rw [gc_loop_target_cons, if_neg h1, if_neg h2, if_pos h3]
    obtain ⟨ih1, ih2⟩ := ih
    constructor
    · intro o hp
      rw [ih1 o hp, List.mem_append, List.mem_singleton, List.mem_cons]
      tauto
    · intro o hm
      rcases ih2 o hm with h | h
      · rcases List.mem_append.mp h with h | h
        · exact Or.inl h
        · exact Or.inr (List.mem_cons.mpr (Or.inl (List.mem_singleton.mp h)))
      · exact Or.inr (List.mem_cons_of_mem _ h)
  | case5 kept o0 h1 h2 h3 =>
    rw [gc_loop_target.eq_2, if_neg h1, if_neg h2, if_neg h3]
    have hnp : ¬ gc_protected ku orig o0 := by
      rintro (h | h | h) <;> [exact h1 h; exact h2 h; exact h3 h]
    constructor
    · intro o hp
      constructor
      · exact Or.inl
      · rintro (h | h)
        · exact h
        · rw [List.mem_singleton.mp h] at hp
          exact absurd hp hnp
    · intro o hm
      exact Or.inl hm
  | case6 kept o0 h1 h2 h3 r rest2 ih =>
    rw [gc_loop_target.eq_3, if_neg h1, if_neg h2, if_neg h3]
    have hnp : ¬ gc_protected ku orig o0 := by
      rintro (h | h | h) <;> [exact h1 h; exact h2 h; exact h3 h]
    obtain ⟨ih1, ih2⟩ := ih
    constructor
    · intro o hp
      rw [ih1 o hp, List.mem_append, List.mem_singleton, List.mem_cons, List.mem_cons]
      constructor
      · rintro ((h | h) | h)
        · exact Or.inl h
        · exact Or.inr (Or.inr (Or.inl h))
        · exact Or.inr (Or.inr (Or.inr h))
      · rintro (h | h | h | h)
        · exact Or.inl (Or.inl h)
        · subst h
          exact absurd hp hnp
        · exact Or.inl (Or.inr h)
        · exact Or.inr h
    · intro o hm
      rcases ih2 o hm with h | h
      · rcases List.mem_append.mp h with h | h
        · exact Or.inl h
        · exact Or.inr (List.mem_cons.mpr (Or.inr
            (List.mem_cons.mpr (Or.inl (List.mem_singleton.mp h)))))
      · exact Or.inr (List.mem_cons_of_mem _ (List.mem_cons_of_mem _ h))
end GarbageCollectLemmas

/-- C5 counterexample: with `keep_in_use = true`, an empty keep-name list,
and a collection of two unprotected blocks (zero users, plain names), the
loop removes only the first one: removing a block while iterating makes
the iterator skip the block that shifts into the freed slot, so `blockB`
survives even though nothing protects it — "every other block in the
targeted collections is removed" is false. -/
theorem gc_loop_claim_counterexample :
    decide (gc_protected true [] ⟨"blockB", 0⟩) = false ∧
    gc_loop_target true [] [] [⟨"blockA", 0⟩, ⟨"blockB", 0⟩] = [⟨"blockB", 0⟩] := by
  constructor
  · decide
  · decide

/-- C5 amended: the loop never removes a protected block (`keep_in_use`
set and a positive user count, or a name in the keep list, or a name
containing "(no gc)") — such a block is in the result iff it was in the
collection — and it never removes anything protected nor invents blocks
(the result is a sub-collection of the input); but it does not remove
every unprotected block, because a block that shifts into the slot of a
removed one is skipped by the iterator. -/
theorem gc_loop_protects (keep_in_use : Bool) (orig : List String) (t : List Block)
    (o : Block) :
    (gc_protected keep_in_use orig o →
      (o ∈ gc_loop_target keep_in_use orig [] t ↔ o ∈ t)) ∧
    (o ∈ gc_loop_target keep_in_use orig [] t → o ∈ t) := by
  obtain ⟨h1, h2⟩ := gc_loop_target_mem keep_in_use orig [] t
  constructor
  · intro hp
    rw [h1 o hp]
    simp
  · intro hm
    rcases h2 o hm with h | h
    · cases h
    · exact h

/-- C5 amended, witness: a block named in the keep list survives a
collection that also holds one unprotected block. -/
theorem gc_loop_protects_witness :
    gc_protected true ["keepme"] ⟨"keepme", 3⟩ ∧
    ((⟨"keepme", 3⟩ : Block) ∈
        gc_loop_target true ["keepme"] [] [⟨"keepme", 3⟩, ⟨"junk", 0⟩] ↔
      (⟨"keepme", 3⟩ : Block) ∈ [(⟨"keepme", 3⟩ : Block), ⟨"junk", 0⟩]) :=
  ⟨by decide, (gc_loop_protects true ["keepme"] [⟨"keepme", 3⟩, ⟨"junk", 0⟩]
      ⟨"keepme", 3⟩).1 (by decide)⟩

section GeomodLemmas

lemma set_geomod_inputs_go_cons (h : GeoHost) (sockets : List NGSocket)
    (k : String) (v : PyVal) (rest : List (String × PyVal)) :
    set_geomod_inputs_go h sockets ((k, v) :: rest) =
      match sockets.find? (fun s => s.name == k) with
      | none => .error (.keyError k)
      | some soc =>
        match (if soc.default_value.isNumeric then h.numCast soc.default_value v
               else .ok v) with
        | .error e => .error e
        | .ok v2 =>
          match h.assign soc.identifier v2 with
          | .error e => .error e
          | .ok _ => set_geomod_inputs_go h sockets rest := rfl

lemma set_geomod_inputs_go_append (h : GeoHost) (sockets : List NGSocket)
    (pre rest : List (String × PyVal))
    (hpre : set_geomod_inputs_go h sockets pre = .ok ()) :
    set_geomod_inputs_go h sockets (pre ++ rest) =
      set_geomod_inputs_go h sockets rest := by
  induction pre with
  | nil => rfl
  | cons p pre ih =>
    obtain ⟨k, v⟩ := p
    rw [List.cons_append, set_geomod_inputs_go_cons] at *
    cases hf : sockets.find? (fun s => s.name == k) with
    | none =>
      simp only [hf] at hpre
      exact Except.noConfusion hpre
    | some soc =>
      simp only [hf] at hpre ⊢
      cases hc : (if soc.default_value.isNumeric then h.numCast soc.default_value v
                  else Except.ok v) with
      | error e =>
        simp only [hc] at hpre
        exact Except.noConfusion hpre
      | ok v2 =>
        simp only [hc] at hpre ⊢
        cases ha : h.assign soc.identifier v2 with
        | error e =>
          simp only [ha] at hpre
          exact Except.noConfusion hpre
        | ok u =>
          simp only [ha] at hpre ⊢
          exact ih hpre

end GeomodLemmas

/-- C4: if the inputs processed before `(k, v)` all succeed, the socket
lookup for `k` yields `soc`, the numeric coercion succeeds with value
`v2`, and the host assignment `mod[soc.identifier] = v2` raises
`TypeError msg`, then `set_geomod_inputs` terminates with exactly that
`TypeError msg`: the `except TypeError as e:` handler prints added context
and re-raises the very same exception — it is neither swallowed nor
replaced. -/
theorem set_geomod_inputs_reraises (h : GeoHost) (gmod : GeoMod)
    (pre post : List (String × PyVal)) (k : String) (v v2 : PyVal)
    (soc : NGSocket) (msg : String)
    (hty : gmod.mtype = "NODES")
    (hpre : set_geomod_inputs_go h gmod.sockets pre = .ok ())
    (hfind : gmod.sockets.find? (fun s => s.name == k) = some soc)
    (hcast : (if soc.default_value.isNumeric then h.numCast soc.default_value v
              else Except.ok v) = .ok v2)
    (hassign : h.assign soc.identifier v2 = .error (.typeError msg)) :
    set_geomod_inputs h gmod (pre ++ (k, v) :: post) = .error (.typeError msg) := by
  unfold set_geomod_inputs
  rw [if_pos hty, set_geomod_inputs_go_append h gmod.sockets pre _ hpre,
    set_geomod_inputs_go_cons]
  simp only [hfind, hcast, hassign]

/-- C4 witness: a host whose assignment raises `TypeError "boom"` on a
one-entry input dict makes `set_geomod_inputs` fail with exactly that
exception. -/
theorem set_geomod_inputs_reraises_witness :
    (GeoMod.mk "NODES" [⟨"Size", "Input_2", PyVal.other "geometry"⟩]).mtype = "NODES" ∧
    set_geomod_inputs
        ⟨fun _ _ => .error (.typeError "boom"), fun _ v => .ok v⟩
        ⟨"NODES", [⟨"Size", "Input_2", PyVal.other "geometry"⟩]⟩
        [("Size", PyVal.other "x")] =
      .error (.typeError "boom") :=
  ⟨rfl,
    set_geomod_inputs_reraises
      ⟨fun _ _ => .error (.typeError "boom"), fun _ v => .ok v⟩
      ⟨"NODES", [⟨"Size", "Input_2", PyVal.other "geometry"⟩]⟩
      [] [] "Size" (PyVal.other "x") (PyVal.other "x")
      ⟨"Size", "Input_2", PyVal.other "geometry"⟩ "boom"
      rfl rfl (by decide) rfl rfl⟩

section BooleanLemmas

lemma boolean_go_ok_fst (l : List Nat) (keep : Nat) (mode : String)
    (st : Nat → MeshObj) (r : Nat) (st2 : Nat → MeshObj)
    (h : boolean_go keep mode st l = .ok (r, st2)) : r = keep := by
  induction l generalizing st with
  | nil =>
    cases h
    rfl
  | cons target rest ih =>
    rw [boolean_go] at h
    split at h
    · exact Except.noConfusion h
    · exact ih _ h

lemma boolean_go_spec (keep : Nat) (mode : String) (l : List Nat) (st : Nat → MeshObj)
    (hmods : ∀ t ∈ l, (st t).modifiers = []) :
    ∃ st2, boolean_go keep mode st l = .ok (keep, st2) ∧
      st2 keep = ⟨(st keep).modifiers,
        (st keep).applied ++ List.replicate l.length (booleanMod mode)⟩ ∧
      ∀ x, x ≠ keep → st2 x = st x := by
  induction l generalizing st with
  | nil =>
    refine ⟨st, rfl, ?_, fun x _ => rfl⟩
    simp
  | cons target rest ih =>
    have htarget : (st target).modifiers = [] := hmods target (List.mem_cons_self _ _)
    rw [boolean_go, if_neg (by rw [htarget]; simp)]
    set o : MeshObj :=
      ⟨((st keep).modifiers ++ [booleanMod mode]).dropLast,
        (st keep).applied ++ [booleanMod mode]⟩ with ho
    set st1 : Nat → MeshObj := fun x => if x = keep then o else st x with hst1
    have hol : o.modifiers = (st keep).modifiers := by
      rw [ho]
      simp
    have hkeep1 : st1 keep = o := by
      rw [hst1]
      simp
    have hpre1 : ∀ t ∈ rest, (st1 t).modifiers = [] := by
      intro t ht
      by_cases hk : t = keep
      · subst hk
        rw [hkeep1, hol]
        exact hmods t (List.mem_cons_of_mem _ ht)
      · rw [hst1]
        simp only [if_neg hk]
        exact hmods t (List.mem_cons_of_mem _ ht)
    obtain ⟨st2, hrun, hkeep2, hother⟩ := ih st1 hpre1
    refine ⟨st2, hrun, ?_, ?_⟩
    · rw [hkeep2, hkeep1, hol]
      simp only [ho, List.length_cons, List.replicate_succ]
      rw [List.append_assoc]
      rfl
    · intro x hx
      rw [hother x hx, hst1]
      simp only [if_neg hx]

end BooleanLemmas

/-- C7: for a non-empty object list (under the precondition that the
remaining objects carry no modifiers, so that the guard at line 418 —
whose body is truncated in the source — is never taken), `boolean(objs,
mode)` returns `objs[0]`, and for each remaining object it creates one
BOOLEAN modifier on `objs[0]` with its operation set to `mode` and applies
it (journalled in `applied`; the modifier stack is back to its original
state), touching no other object; moreover, whenever `boolean` returns
successfully at all, the returned object is `objs[0]`. -/
theorem boolean_spec (keep : Nat) (rest : List Nat) (mode : String) (st : Nat → MeshObj)
    (hmods : ∀ t ∈ rest, (st t).modifiers = []) :
    (∃ st2, boolean (keep :: rest) mode st = .ok (keep, st2) ∧
      st2 keep = ⟨(st keep).modifiers,
        (st keep).applied ++ List.replicate rest.length (booleanMod mode)⟩ ∧
      ∀ x, x ≠ keep → st2 x = st x) ∧
    (∀ (mode2 : String) (st3 : Nat → MeshObj) (r : Nat) (st4 : Nat → MeshObj),
      boolean (keep :: rest) mode2 st3 = .ok (r, st4) → r = keep) := by
  constructor
  · exact boolean_go_spec keep mode rest st hmods
  · intro mode2 st3 r st4 h
    exact boolean_go_ok_fst rest keep mode2 st3 r st4 h

/-- C7 witness: three fresh objects, `boolean([0, 1, 2], "UNION")`
returns object 0 with two applied BOOLEAN/UNION modifiers journalled. -/
theorem boolean_spec_witness :
    (∀ t ∈ [1, 2], (((fun _ => (⟨[], []⟩ : MeshObj)) : Nat → MeshObj) t).modifiers = []) ∧
    ((∃ st2, boolean [0, 1, 2] "UNION" (fun _ => (⟨[], []⟩ : MeshObj)) = .ok (0, st2) ∧
      st2 0 = ⟨(((fun _ => (⟨[], []⟩ : MeshObj)) : Nat → MeshObj) 0).modifiers,
        (((fun _ => (⟨[], []⟩ : MeshObj)) : Nat → MeshObj) 0).applied ++
          List.replicate [1, 2].length (booleanMod "UNION")⟩ ∧
      ∀ x, x ≠ 0 → st2 x = (fun _ => (⟨[], []⟩ : MeshObj)) x) ∧
    (∀ (mode2 : String) (st3 : Nat → MeshObj) (r : Nat) (st4 : Nat → MeshObj),
      boolean [0, 1, 2] mode2 st3 = .ok (r, st4) → r = 0)) :=
  ⟨by decide, boolean_spec 0 [1, 2] "UNION" (fun _ => (⟨[], []⟩ : MeshObj)) (by decide)⟩

section TreeLemmas

theorem OTree.ind_on {P : OTree → Prop}
    (node : ∀ i cs, (∀ c ∈ cs, P c) → P (OTree.node i cs)) : ∀ t, P t
  | OTree.node i cs => node i cs (fun c hc => OTree.ind_on node c)
termination_by t => sizeOf t
decreasing_by
  have := List.sizeOf_lt_of_mem hc
  simp only [OTree.node.sizeOf_spec]
  omega

lemma iter_forest_mem (cs : List OTree)
    (IH : ∀ c ∈ cs, ∀ x, x ∈ (iter_object_tree c).map OTree.id ↔ OTree.memId x c = true)
    (x : Nat) :
    x ∈ (iter_object_forest cs).map OTree.id ↔ OTree.forestMemId x cs = true := by
  induction cs with
  | nil => simp [iter_object_forest, OTree.forestMemId]
  | cons c cs ih =>
    simp only [iter_object_forest, List.map_append, List.mem_append, OTree.forestMemId,
      Bool.or_eq_true]
    exact or_congr (IH c (List.mem_cons_self c cs) x)
      (ih (fun d hd => IH d (List.mem_cons_of_mem _ hd)))

lemma iter_tree_mem (t : OTree) :
    ∀ x, x ∈ (iter_object_tree t).map OTree.id ↔ OTree.memId x t = true := by
  induction t using OTree.ind_on with
  | node i cs IH =>
    intro x
    simp only [iter_object_tree, List.map_cons, List.mem_cons, OTree.memId,
      Bool.or_eq_true, OTree.id, beq_iff_eq]
    exact or_congr Iff.rfl (iter_forest_mem cs IH x)

lemma foldl_append_trace (cs : List OTree) (acc : List Nat) :
    cs.foldl (fun l c => l ++ [OTree.id c]) acc = acc ++ cs.map OTree.id := by
  induction cs generalizing acc with
  | nil => simp
  | cons c cs ih =>
    rw [List.foldl_cons, ih, List.map_cons, List.append_assoc]
    rfl

lemma foldl_put_assign (name : String) (cs : List OTree) (st : ColState) (x : Nat) :
    (cs.foldl (fun st c => put_in_collection c.id name st) st).assign x =
      if x ∈ cs.map OTree.id then some name else st.assign x := by
  induction cs generalizing st with
  | nil => simp
  | cons c cs ih =>
    rw [List.foldl_cons, ih, List.map_cons]
    by_cases hcs : x ∈ cs.map OTree.id
    · simp [hcs]
    · by_cases hc : x = c.id
      · simp [hcs, hc, put_in_collection]
      · simp [hcs, hc, put_in_collection]

lemma traverse_put_assign (name : String) (t : OTree) (st : ColState) (x : Nat) :
    (traverse_children (fun i st => put_in_collection i name st) t st).assign x =
      if x = t.id ∨ x ∈ t.children.map OTree.id then some name else st.assign x := by
  unfold traverse_children
  rw [foldl_put_assign]
  by_cases hcs : x ∈ t.children.map OTree.id
  · simp [hcs]
  · by_cases hc : x = t.id
    · simp [hcs, hc, put_in_collection]
    · simp [hcs, hc, put_in_collection]

lemma group_fold_assign (name : String) (ts : List OTree) (st : ColState) (x : Nat) :
    (group_fold name ts st).assign x =
      if x ∈ ts.flatMap (fun u => u.id :: u.children.map OTree.id) then some name
      else st.assign x := by
  induction ts generalizing st with
  | nil => simp [group_fold]
  | cons t ts ih =>
    show (group_fold name ts (traverse_children
        (fun i st => put_in_collection i name st) t st)).assign x = _
    rw [ih, traverse_put_assign, List.flatMap_cons]
    simp only [List.mem_cons, List.mem_append]
    by_cases hts : x ∈ ts.flatMap (fun u => u.id :: u.children.map OTree.id)
    · simp [hts]
    · by_cases hh : x = t.id ∨ x ∈ t.children.map OTree.id
      · rcases hh with hh | hh <;> simp [hts, hh]
      · rw [not_or] at hh
        simp [hts, hh.1, hh.2]

lemma group_in_collection_assign (objs : List GroupEntry) (name : String)
    (st : ColState) (x : Nat) :
    (group_in_collection objs name st).assign x =
      if x ∈ objs.flatMap (fun e => (GroupEntry.norm e).flatMap
          (fun u => u.id :: u.children.map OTree.id)) then some name
      else st.assign x := by
  induction objs generalizing st with
  | nil => simp [group_in_collection]
  | cons e objs ih =>
    show (group_in_collection objs name (group_fold name (GroupEntry.norm e) st)).assign x = _
    rw [ih, group_fold_assign, List.flatMap_cons]
    simp only [List.mem_append]
    by_cases hrest : x ∈ objs.flatMap (fun e => (GroupEntry.norm e).flatMap
        (fun u => u.id :: u.children.map OTree.id))
    · simp [hrest]
    · by_cases he : x ∈ (GroupEntry.norm e).flatMap (fun u => u.id :: u.children.map OTree.id)
      · simp [hrest, he]
      · simp [hrest, he]

end TreeLemmas

/-- C9: `traverse_children` visits exactly the object and its direct
children (first conjunct, the visit trace); `iter_object_tree` yields the
object first (second conjunct) and ranges over the full recursive subtree
(third conjunct); consequently `group_in_collection` relinks exactly each
listed object together with its immediate children — deeper descendants
keep their previous collection (fourth conjunct). -/
theorem traverse_children_shallow (t : OTree) (x : Nat) (objs : List GroupEntry)
    (name : String) (st : ColState) :
    traverse_children (fun i (l : List Nat) => l ++ [i]) t [] =
      t.id :: t.children.map OTree.id ∧
    (iter_object_tree t).head? = some t ∧
    (x ∈ (iter_object_tree t).map OTree.id ↔ OTree.memId x t = true) ∧
    (group_in_collection objs name st).assign x =
      (if x ∈ objs.flatMap (fun e => (GroupEntry.norm e).flatMap
          (fun u => u.id :: u.children.map OTree.id)) then some name
       else st.assign x) := by
  refine ⟨?_, ?_, iter_tree_mem t x, group_in_collection_assign objs name st x⟩
  · unfold traverse_children
    rw [foldl_append_trace]
    rfl
  · cases t
    rfl

section SpawnLineLemmas

lemma zip_map_self {α β : Type _} (f : α → β) (l : List α) :
    l.zip (l.map f) = l.map (fun x => (x, f x)) := by
  induction l with
  | nil => rfl
  | cons a l ih => rw [List.map_cons, List.zip_cons_cons, ih, List.map_cons]

lemma range_zip_shift (n : Nat) :
    (List.range n).dropLast.zip (List.range n).tail =
      (List.range (n - 1)).map (fun i => (i, i + 1)) := by
  cases n with
  | zero => rfl
  | succ m =>
    have hdrop : (List.range (m + 1)).dropLast = List.range m := by
      rw [List.range_succ, List.dropLast_concat]
    have htail : (List.range (m + 1)).tail = (List.range m).map (fun i => i + 1) := by
      rw [List.range_succ_eq_map]
      rfl
    rw [hdrop, htail, Nat.succ_sub_one, zip_map_self]

lemma spawn_line_edges_eq (name : String) (pts : List (Int × Int × Int)) :
    (spawn_line name pts).mesh.edges =
      (List.range (pts.length - 1)).map (fun i => (i, i + 1)) := by
  show (List.range pts.length).dropLast.zip (List.range pts.length).tail = _
  exact range_zip_shift pts.length

end SpawnLineLemmas

/-- C10: for `n = len(pts) ≥ 1` points, `spawn_line` builds exactly
`n - 1` edges and edge `i` connects point index `i` to point index
`i + 1`: a single open polyline over the points in order (and no
faces). -/
theorem spawn_line_polyline (name : String) (pts : List (Int × Int × Int))
    (h : 1 ≤ pts.length) :
    (spawn_line name pts).mesh.edges.length = pts.length - 1 ∧
    (∀ i, i < pts.length - 1 →
      (spawn_line name pts).mesh.edges[i]? = some (i, i + 1)) ∧
    (spawn_line name pts).mesh.verts = pts ∧
    (spawn_line name pts).mesh.faces = [] := by
  refine ⟨?_, ?_, rfl, rfl⟩
  · rw [spawn_line_edges_eq]
    simp
  · intro i hi
    rw [spawn_line_edges_eq, List.getElem?_map, List.getElem?_range hi]
    rfl

/-- C10 witness: three points give the two edges `(0, 1)` and `(1, 2)`. -/
theorem spawn_line_polyline_witness :
    1 ≤ ([((0 : Int), (0 : Int), (0 : Int)), (1, 0, 0), (2, 0, 0)] :
        List (Int × Int × Int)).length ∧
    ((spawn_line "line" [((0 : Int), (0 : Int), (0 : Int)), (1, 0, 0), (2, 0, 0)]).mesh.edges.length =
        [((0 : Int), (0 : Int), (0 : Int)), (1, 0, 0), (2, 0, 0)].length - 1 ∧
      (∀ i, i < [((0 : Int), (0 : Int), (0 : Int)), (1, 0, 0), (2, 0, 0)].length - 1 →
        (spawn_line "line" [((0 : Int), (0 : Int), (0 : Int)), (1, 0, 0), (2, 0, 0)]).mesh.edges[i]? =
          some (i, i + 1)) ∧
      (spawn_line "line" [((0 : Int), (0 : Int), (0 : Int)), (1, 0, 0), (2, 0, 0)]).mesh.verts =
        [((0 : Int), (0 : Int), (0 : Int)), (1, 0, 0), (2, 0, 0)] ∧
      (spawn_line "line" [((0 : Int), (0 : Int), (0 : Int)), (1, 0, 0), (2, 0, 0)]).mesh.faces = []) :=
  ⟨by decide,
    spawn_line_polyline "line" [((0 : Int), (0 : Int), (0 : Int)), (1, 0, 0), (2, 0, 0)]
      (by decide)⟩

end InfinigenButil
